import Mathlib

/-!
Verification of the market-data archivist (`market_archivist.py`) against its
specification.  The Python module is shallowly embedded: the SQLite tables
become lists of rows, cursors become explicit state passing, floats become
rationals, and exceptions become `Except`.
-/

/-! ## Local time model

`get_pt_datetime` converts a Unix timestamp to a wall-clock datetime in the
`America/Los_Angeles` zone via `zoneinfo` (an external collaborator).  We model
the local datetime by its local calendar date (`day`, counted in days since
1970-01-01, so that adding one day of `datetime.timedelta` is `day + 1`) and
its local hour of day, and we thread the conversion itself as a function
parameter `ptOf : ℤ → PT`.  Python's `date.weekday()` (Monday = 0) of the day
numbered `d` is `(d + 3) % 7`, since 1970-01-01 was a Thursday. -/

structure PT where
  day : ℤ
  hour : ℕ
deriving DecidableEq

/-- Python `date.weekday()`: Monday = 0, ..., Saturday = 5, Sunday = 6. -/
def weekday (d : ℤ) : ℤ := (d + 3) % 7

/-- `is_saturday` (market_archivist.py line 25): weekday of the PT datetime is 5. -/
def is_saturday (ptOf : ℤ → PT) (timestamp : ℤ) : Bool :=
  weekday (ptOf timestamp).day == 5

/-- `is_halt_period` (line 31): local hour is 14 (2 PM–3 PM PT). -/
def is_halt_period (ptOf : ℤ → PT) (timestamp : ℤ) : Bool :=
  (ptOf timestamp).hour == 14

/-- Message of the `ValueError` raised by `resolve_trade_day` on Saturday data
(lines 61–64; the Python message additionally interpolates the rendered
datetime, which we elide as pure formatting). -/
def saturday_msg (timestamp : ℤ) : String :=
  "Saturday trading data is invalid per session calendar. Timestamp: " ++ toString timestamp

/-- `resolve_trade_day` (lines 41–77).  `Except.error` models the raised
`ValueError`; `Option.none` models the `None` returned for the halt period;
`some d` is the trade day (a local calendar date). -/
def resolve_trade_day (ptOf : ℤ → PT) (timestamp : ℤ) : Except String (Option ℤ) :=
  if is_saturday ptOf timestamp then
    .error (saturday_msg timestamp)
  else if is_halt_period ptOf timestamp then
    .ok none
  else
    let dt := ptOf timestamp
    if 15 ≤ dt.hour then
      .ok (some (dt.day + 1))
    else
      .ok (some dt.day)

/-! ## Database model

The three SQLite tables (`init_database`, lines 80–134) become lists of rows.
`INTEGER PRIMARY KEY` row ids are modelled by per-table counters starting at 1
(SQLite's first `lastrowid`); `INSERT` appends at the end of the list, so a
`SELECT` without `ORDER BY` (and `fetchone` of the first hit, i.e. `find?`)
sees rows in insertion order, as SQLite does for these queries.  Prices and
volumes (Python floats) are modelled as rationals. -/

structure TradeDayRow where
  id : ℕ
  symbol : String
  session_date : ℤ
  source : String
deriving DecidableEq

structure BarRow where
  id : ℕ
  trade_day_id : Option ℕ
  timestamp : ℤ
  opn : ℚ       -- `open` column (Lean keyword)
  high : ℚ
  low : ℚ
  close : ℚ
  volume : ℚ
  halt_period : Bool
  raw_json : String
deriving DecidableEq

structure AnnRow where
  id : ℕ
  trade_day_id : ℕ
  annotation_type : String
  content : String
  tags : List String   -- stored as a JSON array; JSON round-trips exactly
  source : String
  created_at : ℤ
  supersedes_id : Option ℕ
  status : String
deriving DecidableEq

structure DB where
  trade_days : List TradeDayRow
  bars : List BarRow
  day_annotations : List AnnRow
  next_trade_day_id : ℕ
  next_bar_id : ℕ
  next_ann_id : ℕ
deriving DecidableEq

/-- `init_database` (line 80): empty tables, row ids start at 1. -/
def init_database : DB := ⟨[], [], [], 1, 1, 1⟩

/-- Predicate of the unique-key `SELECT` in `get_or_create_trade_day`
(lines 153–156). -/
def td_key_match (symbol : String) (session_date : ℤ) (source : String)
    (r : TradeDayRow) : Bool :=
  r.symbol == symbol && r.session_date == session_date && r.source == source

/-- `get_or_create_trade_day` (lines 137–169): look up by (symbol,
session_date, source); if absent insert a new row and return its id. -/
def get_or_create_trade_day (symbol : String) (session_date : ℤ) (source : String)
    (db : DB) : ℕ × DB :=
  match db.trade_days.find? (td_key_match symbol session_date source) with
  | some r => (r.id, db)
  | none =>
      (db.next_trade_day_id,
       { db with
          trade_days := db.trade_days ++
            [⟨db.next_trade_day_id, symbol, session_date, source⟩],
          next_trade_day_id := db.next_trade_day_id + 1 })

/-! ## Ingestion -/

/-- Python's `abs` on the embedded floats. -/
def fabs (x : ℚ) : ℚ := if x < 0 then -x else x

/-- The per-field absolute tolerance of the OHLCV comparison (lines 305–309). -/
def tol : ℚ := mkRat 1 1000

/-- A parsed CSV record: Unix timestamp and the five parsed numeric fields
(lines 240–258), plus the `raw_json` audit payload the code serializes on
line 277 (serialization is an external collaborator; we carry the string). -/
structure Rec where
  ts : ℤ
  opn : ℚ
  high : ℚ
  low : ℚ
  close : ℚ
  volume : ℚ
  raw_json : String
deriving DecidableEq

/-- The tolerance comparison of lines 305–309: all five fields within `tol`. -/
def ohlcv_match (b : BarRow) (r : Rec) : Bool :=
  decide (fabs (b.opn - r.opn) < tol) &&
  decide (fabs (b.high - r.high) < tol) &&
  decide (fabs (b.low - r.low) < tol) &&
  decide (fabs (b.close - r.close) < tol) &&
  decide (fabs (b.volume - r.volume) < tol)

/-- The five numeric fields reported in a conflict detail (lines 319–332). -/
structure OHLCV where
  opn : ℚ
  high : ℚ
  low : ℚ
  close : ℚ
  volume : ℚ
deriving DecidableEq

def BarRow.ohlcv (b : BarRow) : OHLCV := ⟨b.opn, b.high, b.low, b.close, b.volume⟩

def Rec.ohlcv (r : Rec) : OHLCV := ⟨r.opn, r.high, r.low, r.close, r.volume⟩

/-- One entry of `stats["conflict_details"]` (lines 315–333). -/
structure ConflictDetail where
  timestamp : ℤ
  reason : String
  file : String
  existing : OHLCV
  incoming : OHLCV  -- the `"new"` entry of the Python dict
deriving DecidableEq

/-- The ingestion report `stats` (lines 229–234). -/
structure Stats where
  inserted : ℕ
  skipped : ℕ
  conflicts : ℕ
  conflict_details : List ConflictDetail
deriving DecidableEq

def stats0 : Stats := ⟨0, 0, 0, []⟩

instance : Add Stats :=
  ⟨fun a b => ⟨a.inserted + b.inserted, a.skipped + b.skipped,
               a.conflicts + b.conflicts, a.conflict_details ++ b.conflict_details⟩⟩

/-- Outcome of one bar-insertion attempt (the three branches of
lines 301–342). -/
inductive Verdict where
  | inserted
  | skipped
  | conflict (d : ConflictDetail)
deriving DecidableEq

/-- The stats increment each verdict contributes (lines 311, 314–333, 342). -/
def Verdict.delta : Verdict → Stats
  | .inserted => ⟨1, 0, 0, []⟩
  | .skipped => ⟨0, 1, 0, []⟩
  | .conflict d => ⟨0, 0, 1, [d]⟩

/-- The existing-bar lookup (lines 288–297): halt bars are keyed by
(timestamp) among halt bars, non-halt bars by (trade_day_id, timestamp);
`fetchone` returns the first hit. -/
def bar_lookup (db : DB) (tdid : Option ℕ) (hp : Bool) (ts : ℤ) : Option BarRow :=
  if hp then
    db.bars.find? (fun b => b.timestamp == ts && b.halt_period)
  else
    db.bars.find? (fun b => b.trade_day_id == tdid && b.timestamp == ts)

/-- Lines 287–342: look up the bar under its key; on a hit, classify as
skip (all five fields within tolerance) or conflict (stored row untouched);
on a miss, insert the new row. -/
def classify_bar (db : DB) (tdid : Option ℕ) (hp : Bool) (r : Rec)
    (file_path : String) : DB × Verdict :=
  match bar_lookup db tdid hp r.ts with
  | some b =>
      if ohlcv_match b r then
        (db, .skipped)
      else
        (db, .conflict ⟨r.ts, "OHLCV mismatch", file_path, b.ohlcv, r.ohlcv⟩)
  | none =>
      ({ db with
          bars := db.bars ++
            [⟨db.next_bar_id, tdid, r.ts, r.opn, r.high, r.low, r.close,
              r.volume, hp, r.raw_json⟩],
          next_bar_id := db.next_bar_id + 1 },
       .inserted)

/-- One iteration of the ingestion loop (lines 239–342) for one CSV row.
`Except.error e` in the input record models a row whose timestamp or numeric
parsing raises (the parsers are external collaborators); the exception
propagates.  A Saturday `ValueError` from the resolver is re-raised with the
file path appended (lines 261–265). -/
def process_record (ptOf : ℤ → PT) (file_path symbol source : String)
    (r : Except String Rec) (db : DB) : Except String (DB × Verdict) :=
  match r with
  | .error e => .error e
  | .ok rec =>
      match resolve_trade_day ptOf rec.ts with
      | .error e => .error (e ++ ", File: " ++ file_path)
      | .ok session_date =>
          match session_date with
          | none => .ok (classify_bar db none true rec file_path)
          | some d =>
              let p := get_or_create_trade_day symbol d source db
              .ok (classify_bar p.2 (some p.1) false rec file_path)

/-- The ingestion loop over all CSV rows, threading the cursor state and the
`stats` dict (lines 236–342). -/
def ingest_rows (ptOf : ℤ → PT) (file_path symbol source : String) :
    List (Except String Rec) → DB → Stats → Except String (DB × Stats)
  | [], db, s => .ok (db, s)
  | r :: rs, db, s =>
      match process_record ptOf file_path symbol source r db with
      | .error e => .error e
      | .ok (db', v) => ingest_rows ptOf file_path symbol source rs db' (s + v.delta)

/-- `ingest_csv` (lines 198–347) with its commit semantics: `conn.commit()`
runs only after the loop finishes (line 344); if any row raises, the
exception propagates before the commit and the implicit SQLite transaction is
rolled back, so the persisted database is the original one.  The `timeframe`
argument is accepted and unused, as in the source. -/
def ingest_csv (ptOf : ℤ → PT) (file_path symbol timeframe source : String)
    (records : List (Except String Rec)) (db : DB) : DB × Except String Stats :=
  match ingest_rows ptOf file_path symbol source records db stats0 with
  | .ok (db', s) => (db', .ok s)
  | .error e => (db, .error e)

/-! ## Annotations -/

/-- `save_day_annotation` (lines 350–404).  `created_at` (the wall clock read
on line 382) is threaded as an argument.  Note line 376: the owning trade day
is looked up or created with source fixed to `"tradingview"`, not the `source`
argument.  Python's `if supersedes_id:` is falsy for both `None` and `0`. -/
def save_day_annotation (symbol : String) (session_date : ℤ) (content : String)
    (annotation_type : String) (tags : Option (List String)) (source : String)
    (supersedes_id : Option ℕ) (created_at : ℤ) (db : DB) : ℕ × DB :=
  let p := get_or_create_trade_day symbol session_date "tradingview" db
  -- `tags if tags else []`: both `None` and `[]` become `[]`
  let ann : AnnRow :=
    ⟨p.2.next_ann_id, p.1, annotation_type, content, tags.getD [], source,
     created_at, supersedes_id, "active"⟩
  let db1 := { p.2 with
      day_annotations := p.2.day_annotations ++ [ann],
      next_ann_id := p.2.next_ann_id + 1 }
  let db2 :=
    if supersedes_id.getD 0 != 0 then
      { db1 with
          day_annotations := db1.day_annotations.map
            (fun a => if a.id == supersedes_id.getD 0 then
                        { a with status := "superseded" } else a) }
    else db1
  (ann.id, db2)

/-! ## Queries

`ORDER BY` is modelled by a stable insertion sort on the sort key (SQLite
leaves tie order unspecified; stable sort realizes the observed
insertion-order ties). -/

def insertOrd (lt : α → α → Bool) (x : α) : List α → List α
  | [] => [x]
  | y :: ys => if lt x y then x :: y :: ys else y :: insertOrd lt x ys

def sortByKey (lt : α → α → Bool) (l : List α) : List α :=
  l.foldl (fun acc x => insertOrd lt x acc) []

/-- Result row of `get_bars` (lines 470–484). -/
structure BarOut where
  id : ℕ
  timestamp : ℤ
  opn : ℚ
  high : ℚ
  low : ℚ
  close : ℚ
  volume : ℚ
  halt_period : Bool
  session_date : Option ℤ  -- NULL when the LEFT JOIN finds no trade day
  raw_json : String
deriving DecidableEq

/-- The `LEFT JOIN trade_days td ON b.trade_day_id = td.id` of line 446:
`none` models the all-NULL `td` row. -/
def bar_join (db : DB) (b : BarRow) : Option TradeDayRow :=
  match b.trade_day_id with
  | none => none
  | some i => db.trade_days.find? (fun td => td.id == i)

/-- The WHERE clause of `get_bars` (lines 447–461).  `td.symbol = ?` on a
NULL `td` row is not satisfied, so bars without a joined trade day never
pass. -/
def bar_passes (db : DB) (symbol : String) (session_date start_date end_date : Option ℤ)
    (include_halt : Bool) (source : String) (b : BarRow) : Bool :=
  match bar_join db b with
  | none => false
  | some td =>
      td.symbol == symbol && td.source == source &&
      (match session_date with
       | some d => td.session_date == d
       | none =>
           match start_date, end_date with
           | some sd, some ed =>
               decide (sd ≤ td.session_date) && decide (td.session_date ≤ ed)
           | _, _ => true) &&
      (include_halt || !b.halt_period)

/-- Row construction of lines 472–484. -/
def bar_to_out (db : DB) (b : BarRow) : BarOut :=
  ⟨b.id, b.timestamp, b.opn, b.high, b.low, b.close, b.volume, b.halt_period,
   (bar_join db b).map (fun td => td.session_date), b.raw_json⟩

/-- `get_bars` (lines 407–486): filter by the WHERE clause, `ORDER BY
b.timestamp`, and project the output rows. -/
def get_bars (symbol : String) (session_date start_date end_date : Option ℤ)
    (include_halt : Bool) (source : String) (db : DB) : List BarOut :=
  ((sortByKey (fun x y => decide (x.timestamp < y.timestamp))
      (db.bars.filter (bar_passes db symbol session_date start_date end_date
        include_halt source))).map (bar_to_out db))

/-- Result row of `get_day_annotations` (lines 560–570). -/
structure AnnOut where
  id : ℕ
  session_date : ℤ
  annotation_type : String
  content : String
  tags : List String
  source : String
  created_at : ℤ
  supersedes_id : Option ℕ
  status : String
deriving DecidableEq

/-- The inner `JOIN trade_days td ON da.trade_day_id = td.id` of line 526. -/
def ann_join (db : DB) (a : AnnRow) : Option TradeDayRow :=
  db.trade_days.find? (fun td => td.id == a.trade_day_id)

/-- The WHERE clause of `get_day_annotations` (lines 527–541): symbol, date
range, status (skipped when the `status` argument is `"all"`), and optional
annotation type. -/
def ann_passes (symbol : String) (start_date end_date : ℤ) (status : String)
    (annotation_type : Option String) (a : AnnRow) (td : TradeDayRow) : Bool :=
  td.symbol == symbol &&
  decide (start_date ≤ td.session_date) && decide (td.session_date ≤ end_date) &&
  (status == "all" || a.status == status) &&
  (match annotation_type with | none => true | some t => a.annotation_type == t)

/-- The Python-side tag filter of lines 555–558: with a non-empty tag list,
keep rows holding ANY of the requested tags; `None` and `[]` disable the
filter (`if tags:`). -/
def ann_tag_passes (tags : Option (List String)) (row_tags : List String) : Bool :=
  match tags with
  | none => true
  | some ts => if ts.isEmpty then true else ts.any (fun t => row_tags.contains t)

/-- `get_day_annotations` (lines 489–572): join, filter, `ORDER BY
(td.session_date, da.created_at)`, then the Python-side tag filter, then
projection. -/
def get_day_annotations (symbol : String) (start_date end_date : ℤ)
    (tags : Option (List String)) (status : String)
    (annotation_type : Option String) (db : DB) : List AnnOut :=
  let rows := db.day_annotations.filterMap (fun a =>
    match ann_join db a with
    | none => none
    | some td =>
        if ann_passes symbol start_date end_date status annotation_type a td then
          some (a, td)
        else none)
  let sorted := sortByKey (fun x y =>
    decide (x.2.session_date < y.2.session_date) ||
    (x.2.session_date == y.2.session_date && decide (x.1.created_at < y.1.created_at)))
    rows
  (sorted.filter (fun x => ann_tag_passes tags x.1.tags)).map
    (fun x => ⟨x.1.id, x.2.session_date, x.1.annotation_type, x.1.content,
               x.1.tags, x.1.source, x.1.created_at, x.1.supersedes_id, x.1.status⟩)

/-! ## Derived notions used by the theorems -/

/-- A CSV row that aborts the whole ingestion: either its parsing raises
(lines 242–258, modelled by an `Except.error` record) or its timestamp falls
on a Saturday so the resolver raises (lines 260–265). -/
def bad_record (ptOf : ℤ → PT) : Except String Rec → Prop
  | .error _ => True
  | .ok r => is_saturday ptOf r.ts = true

/-- What becomes of a first-pass verdict when the identical record is
re-ingested over the resulting store: an insert turns into a skip, skips and
conflicts recur. -/
def Verdict.replay : Verdict → Verdict
  | .inserted => .skipped
  | v => v

/-- Report of a second pass over an identical batch: nothing inserted, every
previous insert or skip skipped, conflicts recur identically. -/
def Stats.replay (s : Stats) : Stats :=
  ⟨0, s.inserted + s.skipped, s.conflicts, s.conflict_details⟩

/-! ## Concrete fixtures used by witnesses and counterexamples -/

/-- The conflict detail built on lines 315–333. -/
def conflict_of (r : Rec) (b : BarRow) (fp : String) : ConflictDetail :=
  ⟨r.ts, "OHLCV mismatch", fp, b.ohlcv, r.ohlcv⟩

/-- A concrete store with one bar, used by several witnesses. -/
def tdX : TradeDayRow := ⟨1, "ES", 0, "tradingview"⟩

def barX : BarRow := ⟨1, some 1, 100, 10, 11, 9, 10, 5, false, "r"⟩

def dbX1 : DB := ⟨[tdX], [barX], [], 2, 2, 1⟩

/-- An incoming record equal to `barX`. -/
def recX : Rec := ⟨100, 10, 11, 9, 10, 5, "r"⟩

/-- An incoming record whose close differs from `barX` by 1 > 0.001. -/
def recY : Rec := ⟨100, 10, 11, 9, 11, 5, "r"⟩

/-- A conversion placing every timestamp at local Thursday 1970-01-01, 10 AM. -/
def ptOfX : ℤ → PT := fun _ => ⟨0, 10⟩

/-- A conversion with timestamp 0 on a Saturday (day 2 = 1970-01-03) and every
other timestamp on Thursday 10 AM. -/
def ptOfSat : ℤ → PT := fun t => if t = 0 then ⟨2, 12⟩ else ⟨0, 10⟩

/-- A record whose timestamp 0 is Saturday under `ptOfSat`. -/
def recSat : Rec := ⟨0, 1, 1, 1, 1, 0, "s"⟩

/-- At most one stored trade-day row per (symbol, session_date, source) key. -/
def td_key_unique (db : DB) : Prop :=
  ∀ r1 ∈ db.trade_days, ∀ r2 ∈ db.trade_days,
    r1.symbol = r2.symbol → r1.session_date = r2.session_date →
    r1.source = r2.source → r1 = r2

/-- A stored halt bar (no session reference) for the C7 witness. -/
def barH : BarRow := ⟨1, none, 200, 1, 1, 1, 1, 0, true, "h"⟩

def dbH : DB := ⟨[tdX], [barH], [], 2, 2, 1⟩

/-- Concrete rows for the C9 witness: one annotation tagged
{"momentum", "trend_day"}. -/
def annT : AnnRow :=
  ⟨1, 1, "observation", "strong trend", ["momentum", "trend_day"], "manual", 50,
   none, "active"⟩

def dbT : DB := ⟨[tdX], [], [annT], 2, 1, 2⟩

/-! ## Shared helper lemmas -/

theorem find?_append_left {α : Type} (p : α → Bool) (l1 l2 : List α) (a : α)
    (h : l1.find? p = some a) : (l1 ++ l2).find? p = some a := by
  rw [List.find?_append, h]; rfl

theorem find?_append_right {α : Type} (p : α → Bool) (l1 l2 : List α)
    (h : l1.find? p = none) : (l1 ++ l2).find? p = l2.find? p := by
  rw [List.find?_append, h]; rfl

theorem mem_insertOrd {α : Type} (lt : α → α → Bool) (x a : α) (l : List α) :
    a ∈ insertOrd lt x l ↔ a = x ∨ a ∈ l := by
  induction l with
  | nil => simp [insertOrd]
  | cons y ys ih =>
      simp only [insertOrd]
      split
      · simp
      · simp [ih]; tauto

theorem mem_sortByKey {α : Type} (lt : α → α → Bool) (a : α) (l : List α) :
    a ∈ sortByKey lt l ↔ a ∈ l := by
  have key : ∀ (l : List α) (acc : List α),
      a ∈ l.foldl (fun acc x => insertOrd lt x acc) acc ↔ a ∈ acc ∨ a ∈ l := by
    intro l
    induction l with
    | nil => simp
    | cons y ys ih =>
        intro acc
        simp only [List.foldl_cons, ih, mem_insertOrd]
        simp; tauto
  simpa using key l []

/-! ## Claim C1: hour-of-day case split of the resolver (non-Saturday) -/

/-- C1: for every instant whose local weekday is not Saturday, `resolve_trade_day`
maps it by local hour: hour in [15, 24) gives the next local calendar date,
hour in [0, 14) gives the local calendar date itself, and hour in [14, 15)
gives the halt marker. -/
theorem resolve_trade_day_hour_cases (ptOf : ℤ → PT) (t : ℤ)
    (hsat : weekday (ptOf t).day ≠ 5) :
    (15 ≤ (ptOf t).hour → (ptOf t).hour < 24 →
        resolve_trade_day ptOf t = .ok (some ((ptOf t).day + 1))) ∧
    ((ptOf t).hour < 14 → resolve_trade_day ptOf t = .ok (some (ptOf t).day)) ∧
    ((ptOf t).hour = 14 → resolve_trade_day ptOf t = .ok none) := by
  have hs : is_saturday ptOf t = false := by
    simp [is_saturday, hsat]
  refine ⟨?_, ?_, ?_⟩
  · intro h15 _
    have hh : is_halt_period ptOf t = false := by
      simp [is_halt_period]
      omega
    simp [resolve_trade_day, hs, hh, h15]
  · intro h14
    have hh : is_halt_period ptOf t = false := by
      simp [is_halt_period]
      omega
    have h15 : ¬ (15 ≤ (ptOf t).hour) := by omega
    simp [resolve_trade_day, hs, hh, h15]
  · intro h14
    have hh : is_halt_period ptOf t = true := by
      simp [is_halt_period, h14]
    simp [resolve_trade_day, hs, hh]

/-- Witness for C1 at a concrete non-Saturday local time (day 0 = Thursday
1970-01-01): hour 16 rolls to the next day, hour 13 keeps the day, hour 14
is the halt. -/
theorem resolve_trade_day_hour_cases_witness :
    resolve_trade_day (fun _ => PT.mk 0 16) 0 = .ok (some 1) ∧
    resolve_trade_day (fun _ => PT.mk 0 13) 0 = .ok (some 0) ∧
    resolve_trade_day (fun _ => PT.mk 0 14) 0 = .ok none :=
  ⟨(resolve_trade_day_hour_cases (fun _ => PT.mk 0 16) 0 (by decide)).1
      (by decide) (by decide),
   (resolve_trade_day_hour_cases (fun _ => PT.mk 0 13) 0 (by decide)).2.1 (by decide),
   (resolve_trade_day_hour_cases (fun _ => PT.mk 0 14) 0 (by decide)).2.2 rfl⟩

/-! ## Claim C5: Saturday always fails, before the halt check -/

/-- C5: for every instant whose local weekday is Saturday, `resolve_trade_day`
fails with the InvalidSession error, at every hour — including hour 14 inside
the halt window, so the Saturday check is decided before the halt check. -/
theorem resolve_trade_day_saturday_fails (ptOf : ℤ → PT) (t : ℤ)
    (hsat : weekday (ptOf t).day = 5) :
    resolve_trade_day ptOf t = .error (saturday_msg t) := by
  have hs : is_saturday ptOf t = true := by
    simp [is_saturday, hsat]
  simp [resolve_trade_day, hs]

/-- Witness for C5: day 2 = Saturday 1970-01-03; even at hour 14 (inside the
halt window) the resolver fails rather than returning the halt marker. -/
theorem resolve_trade_day_saturday_fails_witness :
    resolve_trade_day (fun _ => PT.mk 2 14) 0 = .error (saturday_msg 0) :=
  resolve_trade_day_saturday_fails (fun _ => PT.mk 2 14) 0 (by decide)

/-! ## Claim C2: classification of an insert attempt hitting an existing key -/


/-- C2: when a stored bar exists under the incoming record's lookup key, the
comparison is a per-field absolute-tolerance (0.001) test over all five
numeric fields; a within-tolerance match yields a skip with the database
(in particular the stored row) fully unchanged, and a beyond-tolerance
difference yields exactly one conflict entry carrying the timestamp, the
reason code and both the stored and incoming OHLCV values, again with the
database unchanged — the stored row is never overwritten. -/
theorem bar_store_existing_key_spec (db : DB) (tdid : Option ℕ) (hp : Bool)
    (r : Rec) (fp : String) (b : BarRow)
    (hb : bar_lookup db tdid hp r.ts = some b) :
    (ohlcv_match b r = true ↔
      (fabs (b.opn - r.opn) < tol ∧ fabs (b.high - r.high) < tol ∧
       fabs (b.low - r.low) < tol ∧ fabs (b.close - r.close) < tol ∧
       fabs (b.volume - r.volume) < tol)) ∧
    (ohlcv_match b r = true → classify_bar db tdid hp r fp = (db, .skipped)) ∧
    (ohlcv_match b r = false →
      classify_bar db tdid hp r fp = (db, .conflict (conflict_of r b fp)) ∧
      ∀ s : Stats,
        (s + (Verdict.conflict (conflict_of r b fp)).delta).conflicts = s.conflicts + 1 ∧
        (s + (Verdict.conflict (conflict_of r b fp)).delta).conflict_details
          = s.conflict_details ++ [conflict_of r b fp]) := by
  refine ⟨?_, ?_, ?_⟩
  · simp [ohlcv_match, Bool.and_eq_true, decide_eq_true_eq, and_assoc]
  · intro h
    simp [classify_bar, hb, h]
  · intro h
    refine ⟨by simp [classify_bar, hb, h, conflict_of], ?_⟩
    intro s
    exact ⟨rfl, rfl⟩


theorem ohlcv_match_X : ohlcv_match barX recX = true := by
  norm_num [ohlcv_match, fabs, tol, barX, recX]

theorem ohlcv_match_Y : ohlcv_match barX recY = false := by
  norm_num [ohlcv_match, fabs, tol, barX, recY]

/-- Witness for C2 at the concrete store: the exact duplicate is skipped and
the divergent record produces the conflict verdict, both leaving the store
unchanged. -/
theorem bar_store_existing_key_spec_witness :
    classify_bar dbX1 (some 1) false recX "f.csv" = (dbX1, .skipped) ∧
    classify_bar dbX1 (some 1) false recY "f.csv"
      = (dbX1, .conflict (conflict_of recY barX "f.csv")) :=
  ⟨(bar_store_existing_key_spec dbX1 (some 1) false recX "f.csv" barX rfl).2.1
      ohlcv_match_X,
   ((bar_store_existing_key_spec dbX1 (some 1) false recY "f.csv" barX rfl).2.2
      ohlcv_match_Y).1⟩

/-! ## Claim C10: annotation trade days are always keyed by source "tradingview" -/

/-- The row `get_or_create_trade_day` resolves to is stored, carries the
returned id, and carries exactly the key it was looked up by. -/
theorem get_or_create_trade_day_spec (symbol : String) (d : ℤ) (src : String)
    (db : DB) :
    ∃ td ∈ (get_or_create_trade_day symbol d src db).2.trade_days,
      td.id = (get_or_create_trade_day symbol d src db).1 ∧
      td.symbol = symbol ∧ td.session_date = d ∧ td.source = src := by
  rcases hfind : db.trade_days.find? (td_key_match symbol d src) with _ | r
  · refine ⟨⟨db.next_trade_day_id, symbol, d, src⟩, ?_, ?_⟩
    · simp [get_or_create_trade_day, hfind]
    · simp [get_or_create_trade_day, hfind]
  · have hmem : r ∈ db.trade_days := List.mem_of_find?_eq_some hfind
    have hkey : td_key_match symbol d src r = true := List.find?_some hfind
    simp only [td_key_match, Bool.and_eq_true, beq_iff_eq] at hkey
    exact ⟨r, by simp [get_or_create_trade_day, hfind, hmem],
           by simp [get_or_create_trade_day, hfind], hkey.1.1, hkey.1.2, hkey.2⟩

/-- Unfolding of `save_day_annotation` with the supersession branch lifted to
the outside. -/
theorem save_day_annotation_unfold (symbol : String) (d : ℤ)
    (content atype : String) (tags : Option (List String)) (source : String)
    (sid : Option ℕ) (t : ℤ) (db : DB) :
    save_day_annotation symbol d content atype tags source sid t db =
      (if sid.getD 0 != 0 then
        ((get_or_create_trade_day symbol d "tradingview" db).2.next_ann_id,
         { (get_or_create_trade_day symbol d "tradingview" db).2 with
            day_annotations :=
              ((get_or_create_trade_day symbol d "tradingview" db).2.day_annotations ++
                [(⟨(get_or_create_trade_day symbol d "tradingview" db).2.next_ann_id,
                  (get_or_create_trade_day symbol d "tradingview" db).1, atype, content,
                  tags.getD [], source, t, sid, "active"⟩ : AnnRow)]).map
                (fun a => if a.id == sid.getD 0 then
                            { a with status := "superseded" } else a),
            next_ann_id :=
              (get_or_create_trade_day symbol d "tradingview" db).2.next_ann_id + 1 })
      else
        ((get_or_create_trade_day symbol d "tradingview" db).2.next_ann_id,
         { (get_or_create_trade_day symbol d "tradingview" db).2 with
            day_annotations :=
              (get_or_create_trade_day symbol d "tradingview" db).2.day_annotations ++
                [(⟨(get_or_create_trade_day symbol d "tradingview" db).2.next_ann_id,
                  (get_or_create_trade_day symbol d "tradingview" db).1, atype, content,
                  tags.getD [], source, t, sid, "active"⟩ : AnnRow)],
            next_ann_id :=
              (get_or_create_trade_day symbol d "tradingview" db).2.next_ann_id + 1 })) := by
  simp only [ save_day_annotation]
  split <;> rfl

/-- C10: `save_day_annotation` attaches the annotation to the trade day keyed
(symbol, session_date, "tradingview") regardless of the `source` argument of
the annotation itself (line 376): the stored annotation row keeps the given
source, but its `trade_day_id` is the id returned by looking up or creating
the key with source `"tradingview"`, and that trade-day row's `source` field
is `"tradingview"`. -/
theorem save_day_annotation_tradingview_spec (symbol : String) (d : ℤ)
    (content atype : String) (tags : Option (List String)) (source : String)
    (sid : Option ℕ) (t : ℤ) (db : DB) :
    ∃ a ∈ ( save_day_annotation symbol d content atype tags source sid t db).2.day_annotations,
      a.id = ( save_day_annotation symbol d content atype tags source sid t db).1 ∧
      a.source = source ∧
      a.trade_day_id = (get_or_create_trade_day symbol d "tradingview" db).1 ∧
      ∃ td ∈ ( save_day_annotation symbol d content atype tags source sid t db).2.trade_days,
        td.id = a.trade_day_id ∧ td.symbol = symbol ∧ td.session_date = d ∧
        td.source = "tradingview" := by
  obtain ⟨td, htdmem, htdid, htdsym, htddate, htdsrc⟩ :=
    get_or_create_trade_day_spec symbol d "tradingview" db
  rw [save_day_annotation_unfold]
  by_cases hsid : (sid.getD 0 != 0) = true
  · rw [if_pos hsid]
    by_cases hida :
        ((get_or_create_trade_day symbol d "tradingview" db).2.next_ann_id
          == sid.getD 0) = true
    · refine ⟨⟨(get_or_create_trade_day symbol d "tradingview" db).2.next_ann_id,
          (get_or_create_trade_day symbol d "tradingview" db).1, atype, content,
          tags.getD [], source, t, sid, "superseded"⟩, ?_, rfl, rfl, rfl,
          td, htdmem, htdid, htdsym, htddate, htdsrc⟩
      have := List.mem_map_of_mem
        (fun a : AnnRow => if a.id == sid.getD 0 then
            { a with status := "superseded" } else a)
        (List.mem_append_right
          ((get_or_create_trade_day symbol d "tradingview" db).2.day_annotations)
          (List.mem_singleton.2 (rfl :
            (⟨(get_or_create_trade_day symbol d "tradingview" db).2.next_ann_id,
              (get_or_create_trade_day symbol d "tradingview" db).1, atype, content,
              tags.getD [], source, t, sid, "active"⟩ : AnnRow) = _)))
      simpa [hida] using this
    · refine ⟨⟨(get_or_create_trade_day symbol d "tradingview" db).2.next_ann_id,
          (get_or_create_trade_day symbol d "tradingview" db).1, atype, content,
          tags.getD [], source, t, sid, "active"⟩, ?_, rfl, rfl, rfl,
          td, htdmem, htdid, htdsym, htddate, htdsrc⟩
      have := List.mem_map_of_mem
        (fun a : AnnRow => if a.id == sid.getD 0 then
            { a with status := "superseded" } else a)
        (List.mem_append_right
          ((get_or_create_trade_day symbol d "tradingview" db).2.day_annotations)
          (List.mem_singleton.2 (rfl :
            (⟨(get_or_create_trade_day symbol d "tradingview" db).2.next_ann_id,
              (get_or_create_trade_day symbol d "tradingview" db).1, atype, content,
              tags.getD [], source, t, sid, "active"⟩ : AnnRow) = _)))
      simpa [hida] using this
  · rw [if_neg hsid]
    exact ⟨⟨(get_or_create_trade_day symbol d "tradingview" db).2.next_ann_id,
        (get_or_create_trade_day symbol d "tradingview" db).1, atype, content,
        tags.getD [], source, t, sid, "active"⟩,
      List.mem_append_right _ (List.mem_singleton.2 rfl), rfl, rfl, rfl,
      td, htdmem, htdid, htdsym, htddate, htdsrc⟩

/-! ## Claim C8: the session directory is idempotent, append-only and key-unique -/


theorem classify_bar_trade_days (db : DB) (tdid : Option ℕ) (hp : Bool) (r : Rec)
    (fp : String) : (classify_bar db tdid hp r fp).1.trade_days = db.trade_days := by
  rcases hl : bar_lookup db tdid hp r.ts with _ | b
  · simp [classify_bar, hl]
  · simp only [classify_bar, hl]
    split <;> rfl

theorem classify_bar_bars (db : DB) (tdid : Option ℕ) (hp : Bool) (r : Rec)
    (fp : String) :
    ∃ l, (classify_bar db tdid hp r fp).1.bars = db.bars ++ l := by
  rcases hl : bar_lookup db tdid hp r.ts with _ | b
  · simp only [classify_bar, hl]
    exact ⟨_, rfl⟩
  · refine ⟨[], ?_⟩
    simp only [classify_bar, hl]
    split <;> simp

theorem get_or_create_trade_day_mono (symbol : String) (d : ℤ) (src : String)
    (db : DB) :
    ∃ l, (get_or_create_trade_day symbol d src db).2.trade_days
          = db.trade_days ++ l := by
  unfold get_or_create_trade_day
  rcases db.trade_days.find? (td_key_match symbol d src) with _ | r
  · exact ⟨_, rfl⟩
  · exact ⟨[], by simp⟩

theorem get_or_create_trade_day_bars (symbol : String) (d : ℤ) (src : String)
    (db : DB) :
    (get_or_create_trade_day symbol d src db).2.bars = db.bars := by
  unfold get_or_create_trade_day
  rcases db.trade_days.find? (td_key_match symbol d src) with _ | r <;> rfl

theorem process_record_mono (ptOf : ℤ → PT) (fp sym src : String)
    (r : Except String Rec) (db db' : DB) (v : Verdict)
    (h : process_record ptOf fp sym src r db = .ok (db', v)) :
    (∃ l, db'.bars = db.bars ++ l) ∧ (∃ l, db'.trade_days = db.trade_days ++ l) := by
  rcases r with e | rec
  · exact absurd h (by simp [process_record])
  · rcases hres : resolve_trade_day ptOf rec.ts with e | sd
    · simp [process_record, hres] at h
    · rcases sd with _ | d
      · simp only [process_record, hres, Except.ok.injEq] at h
        have hdb : (classify_bar db none true rec fp).1 = db' := by rw [h]
        constructor
        · rw [← hdb]; exact classify_bar_bars db none true rec fp
        · rw [← hdb]; exact ⟨[], by rw [classify_bar_trade_days]; simp⟩
      · simp only [process_record, hres, Except.ok.injEq] at h
        set p := get_or_create_trade_day sym d src db with hpdef
        have hdb : (classify_bar p.2 (some p.1) false rec fp).1 = db' := by rw [h]
        constructor
        · obtain ⟨l, hl⟩ := classify_bar_bars p.2 (some p.1) false rec fp
          rw [hdb] at hl
          rw [hl, hpdef, get_or_create_trade_day_bars]
          exact ⟨l, rfl⟩
        · obtain ⟨l, hl⟩ := get_or_create_trade_day_mono sym d src db
          rw [← hdb, classify_bar_trade_days]
          exact ⟨l, hl⟩

theorem ingest_rows_mono (ptOf : ℤ → PT) (fp sym src : String)
    (recs : List (Except String Rec)) :
    ∀ db s db' s', ingest_rows ptOf fp sym src recs db s = .ok (db', s') →
      (∃ l, db'.bars = db.bars ++ l) ∧ (∃ l, db'.trade_days = db.trade_days ++ l) := by
  induction recs with
  | nil =>
      intro db s db' s' h
      simp only [ingest_rows, Except.ok.injEq, Prod.mk.injEq] at h
      exact ⟨⟨[], by rw [h.1]; simp⟩, ⟨[], by rw [h.1]; simp⟩⟩
  | cons r rs ih =>
      intro db s db' s' h
      unfold ingest_rows at h
      rcases hp1 : process_record ptOf fp sym src r db with e | p1
      · rw [hp1] at h; exact absurd h (by simp)
      · rw [hp1] at h
        obtain ⟨⟨l1, hb1⟩, ⟨l2, ht1⟩⟩ :=
          process_record_mono ptOf fp sym src r db p1.1 p1.2 (by rw [hp1])
        obtain ⟨⟨l3, hb2⟩, ⟨l4, ht2⟩⟩ := ih p1.1 (s + p1.2.delta) db' s' h
        exact ⟨⟨l1 ++ l3, by rw [hb2, hb1, List.append_assoc]⟩,
               ⟨l2 ++ l4, by rw [ht2, ht1, List.append_assoc]⟩⟩

theorem save_day_annotation_trade_days (symbol : String) (d : ℤ)
    (content atype : String) (tags : Option (List String)) (source : String)
    (sid : Option ℕ) (t : ℤ) (db : DB) :
    ( save_day_annotation symbol d content atype tags source sid t db).2.trade_days
      = (get_or_create_trade_day symbol d "tradingview" db).2.trade_days := by
  rw [save_day_annotation_unfold]
  split <;> rfl

/-- C8: get-or-create on the session directory is idempotent (a second call
with the same key returns the same id and leaves the store unchanged),
only ever appends to the session table (existing rows are never mutated or
deleted), preserves key-uniqueness, and the other operations (ingestion,
annotation saving) likewise never remove or mutate existing session rows. -/
theorem session_directory_get_or_create_spec (symbol : String) (d : ℤ)
    (src : String) (db : DB) :
    (get_or_create_trade_day symbol d src
        ((get_or_create_trade_day symbol d src db).2)
      = ((get_or_create_trade_day symbol d src db).1,
         (get_or_create_trade_day symbol d src db).2)) ∧
    (∃ l, (get_or_create_trade_day symbol d src db).2.trade_days
            = db.trade_days ++ l) ∧
    (td_key_unique db → td_key_unique (get_or_create_trade_day symbol d src db).2) ∧
    (∀ ptOf fp sym2 src2 recs s db' s',
        ingest_rows ptOf fp sym2 src2 recs db s = .ok (db', s') →
        ∃ l, db'.trade_days = db.trade_days ++ l) ∧
    (∀ sym2 d2 c at2 tg asrc sid t, ∃ l,
        ( save_day_annotation sym2 d2 c at2 tg asrc sid t db).2.trade_days
          = db.trade_days ++ l) := by
  refine ⟨?_, get_or_create_trade_day_mono symbol d src db, ?_, ?_, ?_⟩
  · rcases hfind : db.trade_days.find? (td_key_match symbol d src) with _ | r
    · have hnew : ((db.trade_days ++
          [(⟨db.next_trade_day_id, symbol, d, src⟩ : TradeDayRow)]).find?
            (td_key_match symbol d src))
          = some (⟨db.next_trade_day_id, symbol, d, src⟩ : TradeDayRow) := by
        rw [find?_append_right _ _ _ hfind]
        simp [List.find?, td_key_match]
      simp only [get_or_create_trade_day, hfind]
      rw [hnew]
    · simp only [get_or_create_trade_day, hfind]
  · intro hu
    rcases hfind : db.trade_days.find? (td_key_match symbol d src) with _ | r
    · intro r1 h1 r2 h2 hsym hdate hsrc
      have hnone := List.find?_eq_none.mp hfind
      simp only [get_or_create_trade_day, hfind, List.mem_append,
        List.mem_singleton] at h1 h2
      rcases h1 with h1 | h1 <;> rcases h2 with h2 | h2
      · exact hu r1 h1 r2 h2 hsym hdate hsrc
      · exfalso
        apply hnone r1 h1
        rw [h2] at hsym hdate hsrc
        simp [td_key_match, hsym, hdate, hsrc]
      · exfalso
        apply hnone r2 h2
        rw [h1] at hsym hdate hsrc
        simp [td_key_match, ← hsym, ← hdate, ← hsrc]
      · rw [h1, h2]
    · simpa only [get_or_create_trade_day, hfind] using hu
  · intro ptOf fp sym2 src2 recs s db' s' h
    exact (ingest_rows_mono ptOf fp sym2 src2 recs db s db' s' h).2
  · intro sym2 d2 c at2 tg asrc sid t
    rw [save_day_annotation_trade_days]
    exact get_or_create_trade_day_mono sym2 d2 "tradingview" db

/-- Witness for C8 at a concrete store and key: the second call returns the
same session id and the same store, and key-uniqueness of the empty store is
preserved. -/
theorem session_directory_get_or_create_spec_witness :
    (get_or_create_trade_day "ES" 0 "tradingview"
        ((get_or_create_trade_day "ES" 0 "tradingview" init_database).2)
      = ((get_or_create_trade_day "ES" 0 "tradingview" init_database).1,
         (get_or_create_trade_day "ES" 0 "tradingview" init_database).2)) ∧
    td_key_unique (get_or_create_trade_day "ES" 0 "tradingview" init_database).2 :=
  ⟨(session_directory_get_or_create_spec "ES" 0 "tradingview" init_database).1,
   (session_directory_get_or_create_spec "ES" 0 "tradingview" init_database).2.2.1
     (by intro r1 h1 r2 h2 _ _ _; simp [init_database] at h1)⟩

/-! ## Claim C7: halt bars are invisible to get_bars, even with include_halt -/

/-- C7: a stored halt-period bar (halt flag set, no session reference) is
never returned by `get_bars`, for any combination of arguments — including
`include_halt = true` — because the mandatory symbol/source filter tests the
columns of the LEFT-JOINed trade-day row, which are NULL for such bars. -/
theorem get_bars_never_returns_halt_bars (symbol : String)
    (sd std edd : Option ℤ) (ih : Bool) (src : String) (db : DB) (b : BarRow)
    (hmem : b ∈ db.bars) (hhp : b.halt_period = true)
    (htd : b.trade_day_id = none) :
    bar_to_out db b ∉ get_bars symbol sd std edd ih src db := by
  intro hin
  obtain ⟨b', hb', hout⟩ := List.mem_map.mp hin
  have hpass : bar_passes db symbol sd std edd ih src b' = true :=
    (List.mem_filter.mp ((mem_sortByKey _ _ _).mp hb')).2
  rcases hj : bar_join db b' with _ | td
  · simp [bar_passes, hj] at hpass
  · have h1 : (bar_to_out db b').session_date = some td.session_date := by
      simp [bar_to_out, hj]
    have h2 : (bar_to_out db b).session_date = none := by
      simp [bar_to_out, bar_join, htd]
    rw [hout, h2] at h1
    exact absurd h1 (by simp)


/-- Witness for C7: the concrete halt bar is excluded even with
`include_halt = true`. -/
theorem get_bars_never_returns_halt_bars_witness :
    bar_to_out dbH barH ∉ get_bars "ES" none none none true "tradingview" dbH :=
  get_bars_never_returns_halt_bars "ES" none none none true "tradingview" dbH barH
    (List.mem_singleton.mpr rfl) rfl rfl

/-! ## Claim C9: OR semantics of the annotation tag filter -/

/-- C9: with a non-empty requested tag list, an annotation row is returned by
`get_day_annotations` if and only if it would be returned without a tag
filter and it holds at least one (any, not all) of the requested tags. -/
theorem get_day_annotations_tag_or_spec (symbol : String) (sd ed : ℤ)
    (tags : List String) (status : String) (atype : Option String) (db : DB)
    (a : AnnOut) (hne : tags ≠ []) :
    a ∈ get_day_annotations symbol sd ed (some tags) status atype db ↔
      (a ∈ get_day_annotations symbol sd ed none status atype db ∧
       ∃ t ∈ tags, t ∈ a.tags) := by
  have hE : tags.isEmpty = false := by simpa [List.isEmpty_iff] using hne
  simp only [get_day_annotations,
    show ∀ l, ann_tag_passes none l = true from fun _ => rfl, List.filter_true]
  constructor
  · intro h
    obtain ⟨x, hx, hfx⟩ := List.mem_map.mp h
    have hx1 := List.mem_filter.mp hx
    have htag : (tags.any fun t => x.1.tags.contains t) = true := by
      have h2 := hx1.2
      simpa [ann_tag_passes, hE] using h2
    obtain ⟨t, ht, htin⟩ := List.any_eq_true.mp htag
    have hmemtag : t ∈ x.1.tags := by
      simpa [List.contains] using htin
    have hatags : a.tags = x.1.tags := by rw [← hfx]
    exact ⟨List.mem_map.mpr ⟨x, hx1.1, hfx⟩, t, ht, by rw [hatags]; exact hmemtag⟩
  · rintro ⟨h, t, ht, htin⟩
    obtain ⟨x, hx, hfx⟩ := List.mem_map.mp h
    have hatags : a.tags = x.1.tags := by rw [← hfx]
    refine List.mem_map.mpr ⟨x, List.mem_filter.mpr ⟨hx, ?_⟩, hfx⟩
    simp only [ann_tag_passes, hE, Bool.if_false_left]
    refine (Bool.and_eq_true _ _).mpr ⟨rfl, List.any_eq_true.mpr ⟨t, ht, ?_⟩⟩
    simp [List.contains, ← hatags, htin]


/-- Witness for C9: the annotation tagged {"momentum","trend_day"} matches
the filter ["trend_day","reversal"]. -/
theorem get_day_annotations_tag_or_spec_witness :
    (⟨1, 0, "observation", "strong trend", ["momentum", "trend_day"], "manual",
       50, none, "active"⟩ : AnnOut) ∈
      get_day_annotations "ES" 0 0 (some ["trend_day", "reversal"]) "active"
        none dbT :=
  (get_day_annotations_tag_or_spec "ES" 0 0 ["trend_day", "reversal"] "active"
      none dbT _ (by decide)).mpr
    ⟨by decide, "trend_day", by decide, by decide⟩

/-! ## Claim C6: annotation supersession -/

/-- C6: starting from an empty store, saving annotation A and then annotation
B with `supersedes = A's id` (same symbol and session date) leaves A with
status superseded and B with status active, in one operation; the
status="active" query over A's date range returns exactly B and the
status="superseded" query returns exactly A. -/
theorem annotation_supersession_spec (sym : String) (d : ℤ) (cA cB taA taB : String)
    (tgA tgB : Option (List String)) (srcA srcB : String) (tA tB : ℤ) :
    get_day_annotations sym d d none "active" none
        (( save_day_annotation sym d cB taB tgB srcB
            (some ( save_day_annotation sym d cA taA tgA srcA none tA init_database).1)
            tB ( save_day_annotation sym d cA taA tgA srcA none tA init_database).2).2)
      = [⟨2, d, taB, cB, tgB.getD [], srcB, tB, some 1, "active"⟩] ∧
    get_day_annotations sym d d none "superseded" none
        (( save_day_annotation sym d cB taB tgB srcB
            (some ( save_day_annotation sym d cA taA tgA srcA none tA init_database).1)
            tB ( save_day_annotation sym d cA taA tgA srcA none tA init_database).2).2)
      = [⟨1, d, taA, cA, tgA.getD [], srcA, tA, none, "superseded"⟩] := by
  have h1 : save_day_annotation sym d cA taA tgA srcA none tA init_database
      = (1, ⟨[⟨1, sym, d, "tradingview"⟩], [],
             [⟨1, 1, taA, cA, tgA.getD [], srcA, tA, none, "active"⟩], 2, 1, 2⟩) := rfl
  have hfind : (([⟨1, sym, d, "tradingview"⟩] : List TradeDayRow).find?
        (td_key_match sym d "tradingview"))
      = some ⟨1, sym, d, "tradingview"⟩ := by
    simp [List.find?, td_key_match]
  have h2 : save_day_annotation sym d cB taB tgB srcB (some 1) tB
        (⟨[⟨1, sym, d, "tradingview"⟩], [],
          [⟨1, 1, taA, cA, tgA.getD [], srcA, tA, none, "active"⟩], 2, 1, 2⟩ : DB)
      = (2, ⟨[⟨1, sym, d, "tradingview"⟩], [],
             [⟨1, 1, taA, cA, tgA.getD [], srcA, tA, none, "superseded"⟩,
              ⟨2, 1, taB, cB, tgB.getD [], srcB, tB, some 1, "active"⟩], 2, 1, 3⟩) := by
    simp [ save_day_annotation, get_or_create_trade_day, hfind]
  rw [h1]
  rw [h2]
  have hjoin : ∀ a : AnnRow, a.trade_day_id = 1 →
      ann_join (⟨[⟨1, sym, d, "tradingview"⟩], [],
        [⟨1, 1, taA, cA, tgA.getD [], srcA, tA, none, "superseded"⟩,
         ⟨2, 1, taB, cB, tgB.getD [], srcB, tB, some 1, "active"⟩], 2, 1, 3⟩ : DB) a
      = some ⟨1, sym, d, "tradingview"⟩ := by
    intro a ha
    simp [ann_join, List.find?, ha]
  constructor
  · simp [get_day_annotations, hjoin, ann_passes, ann_tag_passes, sortByKey,
      insertOrd, List.find?, List.filterMap, ann_join]
  · simp [get_day_annotations, hjoin, ann_passes, ann_tag_passes, sortByKey,
      insertOrd, List.find?, List.filterMap, ann_join]

/-! ## Claim C4: all-or-nothing batch ingestion -/

theorem ingest_rows_error_of_bad (ptOf : ℤ → PT) (fp sym src : String) :
    ∀ (recs : List (Except String Rec)) (db : DB) (s : Stats),
      (∃ r ∈ recs, bad_record ptOf r) →
      ∃ e, ingest_rows ptOf fp sym src recs db s = .error e := by
  intro recs
  induction recs with
  | nil =>
      intro db s h
      rcases h with ⟨r, hr, _⟩
      simp at hr
  | cons r rs ih =>
      intro db s h
      rcases h with ⟨r', hr', hbad⟩
      rcases List.mem_cons.mp hr' with heq | htail
      · subst heq
        rcases r' with e | rec
        · exact ⟨e, by simp [ingest_rows, process_record]⟩
        · have hsat : is_saturday ptOf rec.ts = true := hbad
          have hres : resolve_trade_day ptOf rec.ts = .error (saturday_msg rec.ts) := by
            simp [resolve_trade_day, hsat]
          exact ⟨saturday_msg rec.ts ++ ", File: " ++ fp,
                 by simp [ingest_rows, process_record, hres]⟩
      · rcases hp : process_record ptOf fp sym src r db with e | p
        · exact ⟨e, by simp [ingest_rows, hp]⟩
        · obtain ⟨e, he⟩ := ih p.1 (s + p.2.delta) ⟨r', htail, hbad⟩
          exact ⟨e, by simp [ingest_rows, hp, he]⟩

/-- C4: batch ingestion is all-or-nothing.  If any record of the batch is a
fatal parse failure or falls on a Saturday (InvalidSession), the whole
operation raises — so the commit on line 344 is never reached and the
persisted store is exactly the original one: no insert from the batch (bar,
trade day or otherwise) is retained.  A Saturday record is reported with the
offending timestamp and the originating file path appended (lines 261–265). -/
theorem ingest_csv_all_or_nothing (ptOf : ℤ → PT) (fp sym tf src : String)
    (recs : List (Except String Rec)) (db : DB)
    (h : ∃ r ∈ recs, bad_record ptOf r) :
    (ingest_csv ptOf fp sym tf src recs db).1 = db ∧
    (∃ e, (ingest_csv ptOf fp sym tf src recs db).2 = .error e) ∧
    (∀ (rec : Rec) (db' : DB), is_saturday ptOf rec.ts = true →
        process_record ptOf fp sym src (.ok rec) db'
          = .error (saturday_msg rec.ts ++ ", File: " ++ fp)) := by
  obtain ⟨e, he⟩ := ingest_rows_error_of_bad ptOf fp sym src recs db stats0 h
  refine ⟨by simp [ingest_csv, he], ⟨e, by simp [ingest_csv, he]⟩, ?_⟩
  intro rec db' hsat
  have hres : resolve_trade_day ptOf rec.ts = .error (saturday_msg rec.ts) := by
    simp [resolve_trade_day, hsat]
  simp [process_record, hres]

/-- Witness for C4: a two-record batch whose second record is Saturday data
aborts and leaves the empty store untouched (the first record's insert is not
retained). -/
theorem ingest_csv_all_or_nothing_witness :
    (ingest_csv ptOfSat "f.csv" "ES" "1h" "tradingview"
        [.ok recX, .ok recSat] init_database).1 = init_database ∧
    ∃ e, (ingest_csv ptOfSat "f.csv" "ES" "1h" "tradingview"
        [.ok recX, .ok recSat] init_database).2 = .error e :=
  ⟨(ingest_csv_all_or_nothing ptOfSat "f.csv" "ES" "1h" "tradingview"
      [.ok recX, .ok recSat] init_database
      ⟨.ok recSat, by simp, by show is_saturday ptOfSat recSat.ts = true; decide⟩).1,
   (ingest_csv_all_or_nothing ptOfSat "f.csv" "ES" "1h" "tradingview"
      [.ok recX, .ok recSat] init_database
      ⟨.ok recSat, by simp, by show is_saturday ptOfSat recSat.ts = true; decide⟩).2.1⟩

/-! ## Claim C3: re-ingesting an identical batch -/

theorem stats_add_def (a b : Stats) :
    a + b = ⟨a.inserted + b.inserted, a.skipped + b.skipped,
             a.conflicts + b.conflicts, a.conflict_details ++ b.conflict_details⟩ := rfl

theorem stats_add_zero (s : Stats) : s + stats0 = s := by
  cases s; simp [stats_add_def, stats0]

theorem stats_zero_add (s : Stats) : stats0 + s = s := by
  cases s; simp [stats_add_def, stats0]

theorem stats_add_assoc (a b c : Stats) : a + b + c = a + (b + c) := by
  simp [stats_add_def, Nat.add_assoc]

theorem stats_replay_add (a b : Stats) :
    (a + b).replay = a.replay + b.replay := by
  simp [Stats.replay, stats_add_def]
  omega

theorem stats_replay_zero : stats0.replay = stats0 := rfl

theorem verdict_delta_replay (v : Verdict) :
    v.replay.delta = v.delta.replay := by
  cases v <;> rfl

theorem ingest_rows_shift (ptOf : ℤ → PT) (fp sym src : String) :
    ∀ (recs : List (Except String Rec)) (db : DB) (s : Stats),
      ingest_rows ptOf fp sym src recs db s
        = (ingest_rows ptOf fp sym src recs db stats0).map (fun p => (p.1, s + p.2)) := by
  intro recs
  induction recs with
  | nil =>
      intro db s
      simp [ingest_rows, Except.map, stats_add_zero]
  | cons r rs ih =>
      intro db s
      rcases hp : process_record ptOf fp sym src r db with e | p
      · simp [ingest_rows, hp, Except.map]
      · simp only [ingest_rows, hp]
        rw [ih p.1 (s + p.2.delta), ih p.1 (stats0 + p.2.delta)]
        rcases hbase : ingest_rows ptOf fp sym src rs p.1 stats0 with e | q
        · simp [Except.map]
        · simp [Except.map, stats_add_assoc, stats_zero_add]

theorem find?_insert_first {α : Type} (p : α → Bool) (l1 l2 : List α) (x : α)
    (h1 : l1.find? p = none) (hx : p x = true) :
    (l1 ++ [x] ++ l2).find? p = some x := by
  rw [List.append_assoc, find?_append_right _ _ _ h1]
  simp [List.find?, hx]

theorem bar_lookup_extend (db db2 : DB) (tdid : Option ℕ) (hp : Bool) (ts : ℤ)
    (b : BarRow) (h : bar_lookup db tdid hp ts = some b)
    (hb : ∃ l, db2.bars = db.bars ++ l) : bar_lookup db2 tdid hp ts = some b := by
  obtain ⟨l, hl⟩ := hb
  cases hp <;>
    (simp only [bar_lookup] at h ⊢; rw [hl]; exact find?_append_left _ _ _ _ h)

theorem classify_bar_replay (db : DB) (tdid : Option ℕ) (hp : Bool) (r : Rec)
    (fp : String) (db2 : DB)
    (hb : ∃ l, db2.bars = (classify_bar db tdid hp r fp).1.bars ++ l) :
    classify_bar db2 tdid hp r fp = (db2, (classify_bar db tdid hp r fp).2.replay) := by
  rcases hl : bar_lookup db tdid hp r.ts with _ | b
  · -- first pass inserted a fresh row; the replay finds it and skips
    have h1 : classify_bar db tdid hp r fp =
        ({ db with
            bars := db.bars ++
              [⟨db.next_bar_id, tdid, r.ts, r.opn, r.high, r.low, r.close,
                r.volume, hp, r.raw_json⟩],
            next_bar_id := db.next_bar_id + 1 }, .inserted) := by
      simp [classify_bar, hl]
    obtain ⟨l, hbl⟩ := hb
    rw [h1] at hbl
    have hmatch : ohlcv_match
        ⟨db.next_bar_id, tdid, r.ts, r.opn, r.high, r.low, r.close,
         r.volume, hp, r.raw_json⟩ r = true := by
      have htolpos : (0 : ℚ) < tol := by norm_num [tol]
      simp [ohlcv_match, fabs, htolpos]
    have hlook2 : bar_lookup db2 tdid hp r.ts =
        some ⟨db.next_bar_id, tdid, r.ts, r.opn, r.high, r.low, r.close,
              r.volume, hp, r.raw_json⟩ := by
      cases hp
      · simp only [bar_lookup] at hl ⊢
        rw [hbl]
        exact find?_insert_first _ _ _ _ hl (by simp)
      · simp only [bar_lookup] at hl ⊢
        rw [hbl]
        exact find?_insert_first _ _ _ _ hl (by simp)
    rw [h1]
    simp [classify_bar, hlook2, hmatch, Verdict.replay]
  · have h1bars : (classify_bar db tdid hp r fp).1.bars = db.bars := by
      simp only [classify_bar, hl]
      split <;> rfl
    rw [h1bars] at hb
    have hlook2 := bar_lookup_extend db db2 tdid hp r.ts b hl hb
    by_cases hm : ohlcv_match b r = true
    · simp [classify_bar, hl, hlook2, hm, Verdict.replay]
    · simp only [classify_bar, hl, hlook2, hm]
      simp [Verdict.replay]

theorem get_or_create_trade_day_replay (symbol : String) (d : ℤ) (src : String)
    (db db2 : DB)
    (ht : ∃ l, db2.trade_days
            = (get_or_create_trade_day symbol d src db).2.trade_days ++ l) :
    get_or_create_trade_day symbol d src db2
      = ((get_or_create_trade_day symbol d src db).1, db2) := by
  obtain ⟨l, hl⟩ := ht
  rcases hfind : db.trade_days.find? (td_key_match symbol d src) with _ | r
  · have hl' : db2.trade_days
        = db.trade_days ++ [(⟨db.next_trade_day_id, symbol, d, src⟩ : TradeDayRow)] ++ l := by
      rw [hl]
      simp [get_or_create_trade_day, hfind]
    have hfind2 : db2.trade_days.find? (td_key_match symbol d src)
        = some ⟨db.next_trade_day_id, symbol, d, src⟩ := by
      rw [hl']
      exact find?_insert_first _ _ _ _ hfind (by simp [td_key_match])
    simp [get_or_create_trade_day, hfind, hfind2]
  · have hl' : db2.trade_days = db.trade_days ++ l := by
      rw [hl]
      simp [get_or_create_trade_day, hfind]
    have hfind2 : db2.trade_days.find? (td_key_match symbol d src) = some r := by
      rw [hl']
      exact find?_append_left _ _ _ _ hfind
    simp [get_or_create_trade_day, hfind, hfind2]

theorem process_record_replay (ptOf : ℤ → PT) (fp sym src : String)
    (r : Except String Rec) (db db1 : DB) (v : Verdict) (db2 : DB)
    (h : process_record ptOf fp sym src r db = .ok (db1, v))
    (hb : ∃ l, db2.bars = db1.bars ++ l)
    (ht : ∃ l, db2.trade_days = db1.trade_days ++ l) :
    process_record ptOf fp sym src r db2 = .ok (db2, v.replay) := by
  rcases r with e | rec
  · simp [process_record] at h
  · rcases hres : resolve_trade_day ptOf rec.ts with e | sd
    · simp [process_record, hres] at h
    · rcases sd with _ | dd
      · simp only [process_record, hres, Except.ok.injEq] at h
        have hb' : ∃ l, db2.bars = (classify_bar db none true rec fp).1.bars ++ l := by
          rw [h]; exact hb
        have hcls := classify_bar_replay db none true rec fp db2 hb'
        rw [h] at hcls
        simp [process_record, hres, hcls]
      · simp only [process_record, hres, Except.ok.injEq] at h
        have hdb1 : (classify_bar (get_or_create_trade_day sym dd src db).2
            (some (get_or_create_trade_day sym dd src db).1) false rec fp).1 = db1 := by
          rw [h]
        have htd1 : db1.trade_days
            = (get_or_create_trade_day sym dd src db).2.trade_days := by
          rw [← hdb1, classify_bar_trade_days]
        have hgoc := get_or_create_trade_day_replay sym dd src db db2
          (by rw [← htd1]; exact ht)
        have hb' : ∃ l, db2.bars
            = (classify_bar (get_or_create_trade_day sym dd src db).2
                (some (get_or_create_trade_day sym dd src db).1) false rec fp).1.bars
              ++ l := by
          rw [hdb1]; exact hb
        have hcls := classify_bar_replay (get_or_create_trade_day sym dd src db).2
          (some (get_or_create_trade_day sym dd src db).1) false rec fp db2 hb'
        rw [h] at hcls
        simp [process_record, hres, hgoc, hcls]

theorem ingest_rows_replay (ptOf : ℤ → PT) (fp sym src : String) :
    ∀ (recs : List (Except String Rec)) (db dbF : DB) (sF : Stats),
      ingest_rows ptOf fp sym src recs db stats0 = .ok (dbF, sF) →
      ingest_rows ptOf fp sym src recs dbF stats0 = .ok (dbF, sF.replay) := by
  intro recs
  induction recs with
  | nil =>
      intro db dbF sF h
      simp only [ingest_rows, Except.ok.injEq, Prod.mk.injEq] at h
      rw [← h.2, stats_replay_zero]
      simp [ingest_rows, h.1]
  | cons r rs ih =>
      intro db dbF sF h
      rcases hp1 : process_record ptOf fp sym src r db with e | p1
      · simp [ingest_rows, hp1] at h
      · rcases p1 with ⟨db1, v⟩
        simp only [ingest_rows, hp1] at h
        rw [ingest_rows_shift ptOf fp sym src rs db1 (stats0 + v.delta)] at h
        rcases hbase : ingest_rows ptOf fp sym src rs db1 stats0 with e | q
        · simp [hbase, Except.map] at h
        · rcases q with ⟨qdb, qs⟩
          rw [hbase] at h
          simp only [Except.map, Except.ok.injEq, Prod.mk.injEq] at h
          obtain ⟨hq1, hsF⟩ := h
          rw [hq1] at hbase
          have hmono := ingest_rows_mono ptOf fp sym src rs db1 stats0 dbF qs hbase
          have hrep := process_record_replay ptOf fp sym src r db db1 v dbF
            (by rw [hp1]) hmono.1 hmono.2
          have hih := ih db1 dbF qs hbase
          simp only [ingest_rows, hrep]
          rw [ingest_rows_shift ptOf fp sym src rs dbF (stats0 + v.replay.delta), hih]
          simp only [Except.map, Except.ok.injEq, Prod.mk.injEq, true_and]
          rw [← hsF, verdict_delta_replay, stats_replay_add, stats_replay_add,
              stats_replay_zero]

/-- C3 (amended): if a first ingestion of a batch completes (commits), then
re-ingesting the identical batch yields inserted = 0, skipped = (inserted +
skipped of the first pass), conflicts = (conflicts of the first pass) with
identical conflict details, and leaves the store unchanged.  In particular,
when the first pass had skipped = 0 and conflicts = 0 the second pass yields
inserted = 0, skipped = first-pass inserted and conflicts = 0, as the
original claim states. -/
theorem ingest_csv_second_pass (ptOf : ℤ → PT) (fp sym tf src : String)
    (recs : List (Except String Rec)) (db db1 : DB) (s1 : Stats)
    (h : ingest_csv ptOf fp sym tf src recs db = (db1, .ok s1)) :
    ingest_csv ptOf fp sym tf src recs db1
      = (db1, .ok ⟨0, s1.inserted + s1.skipped, s1.conflicts,
                   s1.conflict_details⟩) := by
  unfold ingest_csv at h ⊢
  rcases hrows : ingest_rows ptOf fp sym src recs db stats0 with e | p
  · rw [hrows] at h
    simp at h
  · rw [hrows] at h
    rcases p with ⟨db', s⟩
    simp only [Prod.mk.injEq, Except.ok.injEq] at h
    obtain ⟨hdb, hs⟩ := h
    rw [hdb, hs] at hrows
    rw [ingest_rows_replay ptOf fp sym src recs db db1 s1 hrows]
    rfl

/-- First ingestion of the duplicate-row batch from the empty store: one
insert, one skip. -/
theorem ingest_pass1_eval :
    ingest_csv ptOfX "f.csv" "ES" "1h" "tradingview" [.ok recX, .ok recX]
        init_database
      = (dbX1, .ok ⟨1, 1, 0, []⟩) := by
  have hm : ohlcv_match ⟨1, some 1, 100, 10, 11, 9, 10, 5, false, "r"⟩
      ⟨100, 10, 11, 9, 10, 5, "r"⟩ = true := by
    norm_num [ohlcv_match, fabs, tol]
  simp [ingest_csv, ingest_rows, process_record, resolve_trade_day, is_saturday,
    is_halt_period, weekday, ptOfX, get_or_create_trade_day, td_key_match,
    bar_lookup, classify_bar, init_database, stats0, Verdict.delta, recX, dbX1,
    tdX, barX, hm, stats_add_def, List.find?]

/-- Second ingestion of the same batch: both rows skipped. -/
theorem ingest_pass2_eval :
    ingest_csv ptOfX "f.csv" "ES" "1h" "tradingview" [.ok recX, .ok recX] dbX1
      = (dbX1, .ok ⟨0, 2, 0, []⟩) := by
  have hm : ohlcv_match ⟨1, some 1, 100, 10, 11, 9, 10, 5, false, "r"⟩
      ⟨100, 10, 11, 9, 10, 5, "r"⟩ = true := by
    norm_num [ohlcv_match, fabs, tol]
  simp [ingest_csv, ingest_rows, process_record, resolve_trade_day, is_saturday,
    is_halt_period, weekday, ptOfX, get_or_create_trade_day, td_key_match,
    bar_lookup, classify_bar, stats0, Verdict.delta, recX, dbX1,
    tdX, barX, hm, stats_add_def, List.find?]

/-- Counterexample to C3 as stated: for the batch holding the same record
twice, the first (successful, conflict-free) pass reports inserted = 1, and
the second pass reports skipped = 2 ≠ 1 = (inserted count of pass one). -/
theorem ingest_idempotence_claim_counterexample :
    ingest_csv ptOfX "f.csv" "ES" "1h" "tradingview" [.ok recX, .ok recX]
        init_database
      = (dbX1, .ok ⟨1, 1, 0, []⟩) ∧
    ingest_csv ptOfX "f.csv" "ES" "1h" "tradingview" [.ok recX, .ok recX] dbX1
      = (dbX1, .ok ⟨0, 2, 0, []⟩) ∧
    (2 : ℕ) ≠ 1 :=
  ⟨ingest_pass1_eval, ingest_pass2_eval, by decide⟩

/-- Witness for the amended C3 at the concrete duplicate-row batch. -/
theorem ingest_csv_second_pass_witness :
    ingest_csv ptOfX "f.csv" "ES" "1h" "tradingview" [.ok recX, .ok recX] dbX1
      = (dbX1, .ok ⟨0, 2, 0, []⟩) :=
  ingest_csv_second_pass ptOfX "f.csv" "ES" "1h" "tradingview"
    [.ok recX, .ok recX] init_database dbX1 ⟨1, 1, 0, []⟩ ingest_pass1_eval
